import Mathlib

/-!
Shallow embedding of internal/chart/dependency.go from the charts-syncer
repository, together with theorems settling the frozen claims about it.

Conventions of the embedding:
* File reads are modelled by their parse outcome (an Except value carried in
  the environment); on-disk writes are modelled by recording the written value
  in an output state.
* The trust classifier (utils.ShouldIgnoreRepo applied to the configured
  syncTrusted and ignoreTrusted lists) and the location mapper
  (utils.GetRepoLocationId) live outside this core; they are modelled as
  opaque function parameters of the environment.
* Machine strings are Lean String values; Go nil slices and empty slices are
  identified (no claim distinguishes them).
-/

namespace ChartsSyncer

/-- Kind of a chart repository (api.Kind from the configuration protobuf). -/
inductive Kind where
  | HELM
  | CHARTMUSEUM
  | HARBOR
  | OCI
  | LOCAL
deriving DecidableEq

/-- api.Repo: a chart repository reference, reduced to the fields dependency.go
reads (GetUrl and GetKind). -/
structure Repo where
  url : String
  kind : Kind
deriving DecidableEq

/-- chart.Dependency (helm): name, version and repository URL of a declared
dependency, reduced to the fields dependency.go reads and writes. -/
structure Dependency where
  name : String
  version : String
  repository : String
deriving DecidableEq

/-- chart.Lock (helm): locked dependency list plus the package-wide digest. -/
structure Lock where
  dependencies : List Dependency
  digest : String
deriving DecidableEq

/-- chart.Metadata (helm): apiVersion plus the optional inline dependency list
(present for APIVersion v2 charts; Option models the Go nil slice because
BuildDependencies tests depsFromMetadata against nil). -/
structure Metadata where
  apiVersion : String
  dependencies : Option (List Dependency)
deriving DecidableEq

/-- helm constant chart.APIVersionV1, also the APIV1 constant of this repo. -/
def APIV1 : String := "v1"

/-- helm constant chart.APIVersionV2, also the APIV2 constant of this repo. -/
def APIV2 : String := "v2"

/-- chart.APIVersionV2 under its helm name, as used by BuildDependencies. -/
def APIVersionV2 : String := "v2"

/-- GetLockAPIVersion returns the apiVersion of a chart lock file, decided
purely by filename presence: requirements.lock (checked first, hence legacy
precedence) maps to v1, Chart.lock to v2, neither to the empty string.
The utils.FileExists error paths are I/O failures outside this model. -/
def GetLockAPIVersion (hasRequirementsLock hasChartLock : Bool) : String :=
  if hasRequirementsLock then APIV1
  else if hasChartLock then APIV2
  else ""

/-- Identity of the backend client used for a fetch: the target-side reader r,
or the source-side client t[locationId] keyed by repository location. -/
inductive ClientId where
  | target
  | sourceLoc (id : Nat)
deriving DecidableEq

/-- Abstract view of the chart directory contents and of the external
collaborators consumed by dependency.go. File contents appear as their parse
outcome; fetch and copy are the backend client and filesystem operations. -/
structure Env where
  hasRequirementsLock : Bool
  hasChartLock : Bool
  lockFile : Except String Lock
  chartMeta : Except String Metadata
  requirementsYaml : Except String (List Dependency)
  ign : String → Bool
  locId : String → Nat
  fetch : ClientId → String → String → Except String String
  copy : String → String → Except String Unit

/-- GetChartLock returns the chart lock from an uncompressed chart: none when
no lock file exists (empty apiVersion), otherwise the parse outcome of the
lock file that GetLockAPIVersion selected. -/
def GetChartLock (env : Env) : Except String (Option Lock) :=
  let apiVersion := GetLockAPIVersion env.hasRequirementsLock env.hasChartLock
  if apiVersion = "" then Except.ok none
  else
    match env.lockFile with
    | Except.error e => Except.error e
    | Except.ok l => Except.ok (some l)

/-- splitSchemeL splits a URL character list at the first occurrence of the
three characters colon slash slash, returning the scheme characters and the
remainder. Model of the scheme decomposition Go net/url Parse performs on an
absolute URL. -/
def splitSchemeL : List Char → Option (List Char × List Char)
  | [] => none
  | c :: cs =>
    if c = ':' ∧ cs.take 2 = ['/', '/'] then some ([], cs.drop 2)
    else
      match splitSchemeL cs with
      | some (p, r) => some (c :: p, r)
      | none => none

/-- Model of parseUrl.Scheme = "oci" followed by parseUrl.String() in Go for an
absolute URL: the scheme before the first colon slash slash separator is
replaced by oci, host and path kept. A URL without the separator is returned
unchanged (repo configurations handled by this code always carry a scheme). -/
def setOciScheme (u : String) : String :=
  match splitSchemeL u.data with
  | some (_, r) => "oci://" ++ String.mk r
  | none => u

/-- getDependencyRepoURL calculates the proper URL to be used in dependency
files: the target URL as configured, with the scheme forced to oci when the
target repository kind is OCI. -/
def getDependencyRepoURL (targetRepo : Repo) : String :=
  if targetRepo.kind = Kind.OCI then setOciScheme targetRepo.url
  else targetRepo.url

/-- Loop body of updateChartMetadataFile (lines 236-253): the per-dependency
rewrite decision and rewrite applied to a Chart.yaml declaration entry.
The classifier ign stands for utils.ShouldIgnoreRepo over the configured
syncTrusted and ignoreTrusted lists, applied to the repository URL. -/
def rewriteDepMeta (ign : String → Bool) (sourceRepo targetRepo : Repo)
    (dep : Dependency) : Dependency :=
  let replaceDependencyRepo := !(ign dep.repository)
  if (dep.repository == sourceRepo.url || replaceDependencyRepo) then
    { dep with repository := getDependencyRepoURL targetRepo }
  else dep

/-- Loop body of updateRequirementsFile (lines 281-299): the per-dependency
rewrite applied to a requirements.yaml declaration entry. Textually the same
code as the updateChartMetadataFile loop body. -/
def rewriteDepReq (ign : String → Bool) (sourceRepo targetRepo : Repo)
    (dep : Dependency) : Dependency :=
  let replaceDependencyRepo := !(ign dep.repository)
  if (dep.repository == sourceRepo.url || replaceDependencyRepo) then
    { dep with repository := getDependencyRepoURL targetRepo }
  else dep

/-- Loop body of updateLockFile (lines 313-331): the per-dependency rewrite
applied to a lock entry. Textually the same code as the declaration loops. -/
def rewriteDepLock (ign : String → Bool) (sourceRepo targetRepo : Repo)
    (dep : Dependency) : Dependency :=
  let replaceDependencyRepo := !(ign dep.repository)
  if (dep.repository == sourceRepo.url || replaceDependencyRepo) then
    { dep with repository := getDependencyRepoURL targetRepo }
  else dep

/-- JSON escaping of one character, covering the characters the model's data
can contain: double quote and backslash escape to a two-character sequence,
everything else stands for itself. Model of the string encoder inside Go
encoding/json Marshal. -/
def escChar (c : Char) : List Char :=
  if c = '"' then ['\\', '"']
  else if c = '\\' then ['\\', '\\']
  else [c]

/-- JSON escaping of a character sequence. -/
def escape : List Char → List Char
  | [] => []
  | c :: cs => escChar c ++ escape cs

/-- JSON encoding of a string value, quotes included. -/
def encStr (s : String) : List Char :=
  '"' :: (escape s.data ++ ['"'])

/-- Characters of the opening brace plus the name key of the JSON object that
encoding/json produces for a chart.Dependency. -/
def keyName : List Char :=
  ['\x7b', '"', 'n', 'a', 'm', 'e', '"', ':']

/-- Characters of the version key, with its leading comma. -/
def keyVersion : List Char :=
  [',', '"', 'v', 'e', 'r', 's', 'i', 'o', 'n', '"', ':']

/-- Characters of the repository key, with its leading comma. -/
def keyRepository : List Char :=
  [',', '"', 'r', 'e', 'p', 'o', 's', 'i', 't', 'o', 'r', 'y', '"', ':']

/-- JSON encoding of one chart.Dependency as Go encoding/json Marshal lays it
out, restricted to the modelled fields. -/
def encDep (d : Dependency) : List Char :=
  keyName ++ encStr d.name ++ keyVersion ++ encStr d.version ++
    keyRepository ++ encStr d.repository ++ ['\x7d']

/-- JSON encoding of the comma-separated items of a dependency array. -/
def encItems : List Dependency → List Char
  | [] => []
  | [d] => encDep d
  | d :: d2 :: ds => encDep d ++ ',' :: encItems (d2 :: ds)

/-- JSON encoding of a dependency array, brackets included. Go serializes a
nil slice as null and a non-nil one as an array; the model identifies nil and
empty, a distinction no claim observes. -/
def encList (l : List Dependency) : List Char :=
  '[' :: (encItems l ++ [']'])

/-- JSON encoding of the two-element array of dependency lists that hashDeps
marshals. -/
def encPair (req lock : List Dependency) : List Char :=
  '[' :: (encList req ++ ',' :: (encList lock ++ [']']))

/-- Model of provenance.Digest from the external helm library: a sha-256
digest of the serialized byte stream. Modelled as the identity embedding of
those bytes: deterministic, and injective the way the digest contract assumes
sha-256 to be collision-free on the engine's inputs. -/
def provenanceDigest (s : String) : String := s

/-- hashDeps generates the digest of the dependencies: the json marshalling of
the ordered pair of the declaration list and the lock-entry list, digested and
prefixed with the algorithm tag. -/
def hashDeps (req lock : List Dependency) : String :=
  "sha256:" ++ provenanceDigest (String.mk (encPair req lock))

/-- updateLockFile (lines 312-348): rewrites every lock entry in place with
the per-entry rewrite decision, then recomputes the digest over the given
declaration list and the rewritten lock entries, and returns the lock value
written back to disk. Serialization and write errors are I/O failures outside
this model; the getDependencyRepoURL error branch is unreachable for parseable
configured URLs. -/
def updateLockFile (ign : String → Bool) (sourceRepo targetRepo : Repo)
    (lock : Lock) (deps : List Dependency) : Lock :=
  let newDeps := lock.dependencies.map (rewriteDepLock ign sourceRepo targetRepo)
  { dependencies := newDeps, digest := hashDeps deps newDeps }

/-- updateChartMetadataFile (lines 225-265): parses Chart.yaml, rewrites its
declared dependencies in place, writes the file back, and, when a lock exists,
also updates the lock file, passing the rewritten metadata dependencies as the
declaration list for the digest. Returns the written metadata and the written
lock. Go passes the possibly-nil metadata dependency slice to updateLockFile;
the model passes the empty list for nil. -/
def updateChartMetadataFile (env : Env) (lock : Option Lock)
    (sourceRepo targetRepo : Repo) : Except String (Metadata × Option Lock) :=
  match env.chartMeta with
  | Except.error e => Except.error e
  | Except.ok md =>
    let newMd : Metadata :=
      { md with dependencies :=
          md.dependencies.map (fun l =>
            l.map (rewriteDepMeta env.ign sourceRepo targetRepo)) }
    match lock with
    | none => Except.ok (newMd, none)
    | some l =>
      Except.ok
        (newMd,
         some (updateLockFile env.ign sourceRepo targetRepo l
                (newMd.dependencies.getD [])))

/-- updateRequirementsFile (lines 269-309): parses requirements.yaml, rewrites
its declared dependencies, writes the file back, and updates the legacy lock
file unconditionally. BuildDependencies reaches this path only when
requirements.lock exists, so the lock argument is the parsed lock. -/
def updateRequirementsFile (env : Env) (lock : Lock)
    (sourceRepo targetRepo : Repo) : Except String (List Dependency × Lock) :=
  match env.requirementsYaml with
  | Except.error e => Except.error e
  | Except.ok deps =>
    let newDeps := deps.map (rewriteDepReq env.ign sourceRepo targetRepo)
    Except.ok
      (newDeps, updateLockFile env.ign sourceRepo targetRepo lock newDeps)

/-- Identity key of one dependency, name-version (line 186). -/
def depId (dep : Dependency) : String :=
  dep.name ++ "-" ++ dep.version

/-- Client selection of the materializer loop (lines 189-201): when the
classifier marks the repository URL of the dependency as ignored, the
source-side client of the location mapped from that URL is used, otherwise
the target-side reader. -/
def selectClient (env : Env) (repoUrl : String) : ClientId :=
  if env.ign repoUrl then ClientId.sourceLoc (env.locId repoUrl)
  else ClientId.target

/-- One iteration of the materializer loop (lines 185-217) for one dependency:
fetch from the selected client and copy into the charts folder, producing the
artifact path on success or the annotated error message on failure. -/
def materializeDep (env : Env) (chartPath : String) (dep : Dependency) :
    Except String String :=
  let i := depId dep
  let client := selectClient env dep.repository
  match env.fetch client dep.name dep.version with
  | Except.error e =>
    Except.error ("fetching \"" ++ i ++ "\" chart: " ++ e)
  | Except.ok depTgz =>
    let depFile := chartPath ++ "/charts/" ++ i ++ ".tgz"
    match env.copy depFile depTgz with
    | Except.error e =>
      Except.error
        ("copying \"" ++ i ++ "\" chart to \"" ++ depFile ++ "\": " ++ e)
    | Except.ok _ => Except.ok depFile

/-- Step 2 of BuildDependencies over the authoritative dependency list:
artifact paths copied into the charts folder, the multierror accumulator (one
message per failed dependency, in order), and the trace of the client used per
dependency identity. A failure records its message and the loop continues. -/
def materializeDeps (env : Env) (chartPath : String) :
    List Dependency → List String × List String × List (String × ClientId)
  | [] => ([], [], [])
  | d :: ds =>
    let rest := materializeDeps env chartPath ds
    match materializeDep env chartPath d with
    | Except.ok f =>
      (f :: rest.1, rest.2.1, (depId d, selectClient env d.repository) :: rest.2.2)
    | Except.error e =>
      (rest.1, e :: rest.2.1, (depId d, selectClient env d.repository) :: rest.2.2)

/-- Outcome of one BuildDependencies call: an early fatal error (Go return
with a traced error) or the final aggregated multierror value, where the empty
list models the nil error of a fully successful call. -/
inductive BuildResult where
  | fatal (msg : String)
  | done (errs : List String)
deriving DecidableEq

/-- On-disk effects of one BuildDependencies call: whether the charts folder
was removed and recreated empty, the artifact files copied into it, and the
values written to Chart.yaml, requirements.yaml and the lock file (none means
the file was not written). -/
structure FSState where
  chartsDirCleared : Bool
  artifacts : List String
  chartYamlOut : Option Metadata
  requirementsOut : Option (List Dependency)
  lockOut : Option Lock
  fetchCalls : List (String × ClientId)
deriving DecidableEq

/-- The state right after the charts folder is removed and recreated (lines
125-132), before any file is read or parsed. -/
def initialState : FSState :=
  { chartsDirCleared := true, artifacts := [], chartYamlOut := none,
    requirementsOut := none, lockOut := none, fetchCalls := [] }

/-- apiVersion resolution of BuildDependencies (lines 140-160): lock filename
detection with the Chart.yaml fallback. Returns none for the early nil return
of a chart with neither a lock file nor a v2 metadata (no dependencies), and
otherwise the effective apiVersion together with depsFromMetadata. -/
def resolveGeneration (env : Env) :
    Except String (Option (String × Option (List Dependency))) :=
  let apiVersion := GetLockAPIVersion env.hasRequirementsLock env.hasChartLock
  if apiVersion = "" then
    match env.chartMeta with
    | Except.error e => Except.error e
    | Except.ok md =>
      if md.apiVersion = APIVersionV2 then
        Except.ok (some (APIV2, md.dependencies))
      else Except.ok none
  else Except.ok (some (apiVersion, none))

/-- Step 1 of BuildDependencies (lines 162-173): dispatch on the effective
apiVersion to the requirements or metadata update, producing the state with
the written files and the lock value whose entries were rewritten in place
(the same mutated object BuildDependencies later reads its dependency list
from). The nil-lock error stands for the Go nil-pointer dereference that an
APIV1 dispatch without a lock would hit; BuildDependencies cannot reach it. -/
def updateFiles (env : Env) (sourceRepo targetRepo : Repo)
    (lockOpt : Option Lock) (apiVersion : String) :
    Except String (FSState × Option Lock) :=
  if apiVersion = APIV1 then
    match lockOpt with
    | none => Except.error ("nil lock")
    | some l =>
      match updateRequirementsFile env l sourceRepo targetRepo with
      | Except.error e => Except.error e
      | Except.ok (newReq, newLock) =>
        Except.ok
          ({ initialState with
              requirementsOut := some newReq
              lockOut := some newLock }, some newLock)
  else if apiVersion = APIV2 then
    match updateChartMetadataFile env lockOpt sourceRepo targetRepo with
    | Except.error e => Except.error e
    | Except.ok (newMd, newLock) =>
      Except.ok
        ({ initialState with
            chartYamlOut := some newMd
            lockOut := newLock }, newLock)
  else Except.error ("unrecognised apiVersion " ++ apiVersion)

/-- BuildDependencies (lines 119-221): removes and recreates the charts
folder, loads the lock, resolves the schema generation, rewrites the
declaration and lock files, and materializes the authoritative dependency
list, which is the in-place rewritten lock entry list when a lock exists and
the pre-rewrite inline metadata declarations otherwise. -/
def BuildDependencies (env : Env) (chartPath : String)
    (sourceRepo targetRepo : Repo) : FSState × BuildResult :=
  match GetChartLock env with
  | Except.error e => (initialState, BuildResult.fatal e)
  | Except.ok lockOpt =>
    match resolveGeneration env with
    | Except.error e => (initialState, BuildResult.fatal e)
    | Except.ok none => (initialState, BuildResult.done [])
    | Except.ok (some (apiVersion, depsFromMetadata)) =>
      match updateFiles env sourceRepo targetRepo lockOpt apiVersion with
      | Except.error e => (initialState, BuildResult.fatal e)
      | Except.ok (st1, updatedLock) =>
        let deps : List Dependency :=
          match updatedLock with
          | some l => l.dependencies
          | none => depsFromMetadata.getD []
        let out := materializeDeps env chartPath deps
        ({ st1 with
            artifacts := out.1
            fetchCalls := out.2.2 },
         BuildResult.done out.2.1)

/-- Projection of a dependency to its name and version pair (the identity the
lock and declaration lists are compared by). -/
def nv (d : Dependency) : String × String := (d.name, d.version)

/-- Whether a character list contains the colon slash slash scheme separator
that splitSchemeL splits at. -/
def hasSchemeSep : List Char → Bool
  | [] => false
  | c :: cs =>
    if c = ':' ∧ cs.take 2 = ['/', '/'] then true else hasSchemeSep cs

/-- The dependency list BuildDependencies hands to the materializer, written
out directly from the code paths: the in-place rewritten lock entries when a
lock file exists, and the pre-rewrite inline metadata declarations otherwise
(empty when the chart has no dependencies). -/
def authoritativeDepsAtFetch (env : Env) (s t : Repo) : List Dependency :=
  match GetChartLock env with
  | Except.ok (some l) => l.dependencies.map (rewriteDepLock env.ign s t)
  | Except.ok none =>
    match resolveGeneration env with
    | Except.ok (some (_, some ds)) => ds
    | _ => []
  | Except.error _ => []

/-- The authoritative dependency list with its original pre-rewrite repository
URLs: the lock entries as parsed, or the inline metadata declarations. -/
def originalAuthoritativeDeps (env : Env) : List Dependency :=
  match GetChartLock env with
  | Except.ok (some l) => l.dependencies
  | Except.ok none =>
    match resolveGeneration env with
    | Except.ok (some (_, some ds)) => ds
    | _ => []
  | Except.error _ => []

/-- The C1 claim stated at one invocation: the client recorded for every
materialized dependency is the one selected from that dependency's original
pre-rewrite repository URL by the trust classifier and location mapper. -/
def FetchFromOriginalRepo (env : Env) (chartPath : String) (s t : Repo) : Prop :=
  (BuildDependencies env chartPath s t).1.fetchCalls =
    (originalAuthoritativeDeps env).map
      (fun d => (depId d, selectClient env d.repository))

/-- A lock entry whose repository is the source repository URL, which the
classifier of envA marks as ignored. -/
def depA : Dependency :=
  { name := "dep", version := "1.0.0", repository := "http://a.example" }

/-- Concrete environment refuting C1: a Chart.lock chart whose single
dependency comes from the source repository, the classifier ignoring exactly
that source URL and not the target URL. -/
def envA : Env :=
  { hasRequirementsLock := false
    hasChartLock := true
    lockFile := Except.ok { dependencies := [depA], digest := "d" }
    chartMeta := Except.ok { apiVersion := "v2", dependencies := some [depA] }
    requirementsYaml := Except.ok []
    ign := fun u => u == "http://a.example"
    locId := fun _ => 7
    fetch := fun _ _ _ => Except.ok "/tmp/dep.tgz"
    copy := fun _ _ => Except.ok () }

/-- Source repository of the concrete scenarios. -/
def srcA : Repo := { url := "http://a.example", kind := Kind.HELM }

/-- Target repository of the concrete scenarios (not OCI, so its canonical
dependency URL is its configured URL). -/
def tgtA : Repo := { url := "http://t.example", kind := Kind.HELM }

/-- First dependency of the three-entry materialization scenario. -/
def depZk : Dependency :=
  { name := "zookeeper", version := "3.8.0", repository := "http://a.example" }

/-- Second dependency of the scenario, whose fetch fails. -/
def depEtcd : Dependency :=
  { name := "etcd", version := "1.2.3", repository := "http://a.example" }

/-- Third dependency of the scenario. -/
def depRedis : Dependency :=
  { name := "redis", version := "7.0.0", repository := "http://a.example" }

/-- Concrete environment for the C2 scenario: three lock entries, the
transport failing exactly for the etcd chart. -/
def envEtcd : Env :=
  { hasRequirementsLock := false
    hasChartLock := true
    lockFile := Except.ok { dependencies := [depZk, depEtcd, depRedis], digest := "d" }
    chartMeta := Except.ok { apiVersion := "v2", dependencies := some [] }
    requirementsYaml := Except.ok []
    ign := fun _ => false
    locId := fun _ => 0
    fetch := fun _ name _ =>
      if name == "etcd" then Except.error "transport error"
      else Except.ok "/tmp/ok.tgz"
    copy := fun _ _ => Except.ok () }

/-- Concrete environment for the C8 scenario: neither lock file exists, the
metadata is apiVersion v2 with one inline dependency, every fetch succeeds. -/
def envMeta : Env :=
  { hasRequirementsLock := false
    hasChartLock := false
    lockFile := Except.error "no lock file"
    chartMeta := Except.ok { apiVersion := "v2", dependencies := some [depA] }
    requirementsYaml := Except.ok []
    ign := fun _ => false
    locId := fun _ => 0
    fetch := fun _ _ _ => Except.ok "/tmp/dep.tgz"
    copy := fun _ _ => Except.ok () }

/-- Concrete environment for the C10 scenario: a Chart.lock exists but its
content is malformed, so BuildDependencies fails fatally after the charts
folder was already emptied. -/
def envBadLock : Env :=
  { hasRequirementsLock := false
    hasChartLock := true
    lockFile := Except.error "error converting YAML to JSON"
    chartMeta := Except.ok { apiVersion := "v2", dependencies := some [depA] }
    requirementsYaml := Except.ok []
    ign := fun _ => false
    locId := fun _ => 0
    fetch := fun _ _ _ => Except.ok "/tmp/dep.tgz"
    copy := fun _ _ => Except.ok () }

/-- Concrete environment with no lock files at all, for the C7 no-lock case. -/
def envNoLock : Env :=
  { hasRequirementsLock := false
    hasChartLock := false
    lockFile := Except.error "no lock file"
    chartMeta := Except.ok { apiVersion := "v1", dependencies := none }
    requirementsYaml := Except.ok []
    ign := fun _ => false
    locId := fun _ => 0
    fetch := fun _ _ _ => Except.ok "/tmp/dep.tgz"
    copy := fun _ _ => Except.ok () }

/-- An OCI-kind target repository with an https URL, for the C4 scenario. -/
def tgtOci : Repo := { url := "https://example.com/charts", kind := Kind.OCI }


/-- Specification-side projection of one materializer iteration: the recorded
error message when the dependency fails, none when it succeeds. -/
def materializeError (env : Env) (p : String) (d : Dependency) : Option String :=
  match materializeDep env p d with
  | Except.error e => some e
  | Except.ok _ => none

/-- Specification-side projection of one materializer iteration: the artifact
path when the dependency succeeds, none when it fails. -/
def materializeArtifact (env : Env) (p : String) (d : Dependency) : Option String :=
  match materializeDep env p d with
  | Except.ok f => some f
  | Except.error _ => none

lemma rewriteDepMeta_eq_lock (ign : String → Bool) (s t : Repo) (d : Dependency) :
    rewriteDepMeta ign s t d = rewriteDepLock ign s t d := rfl

lemma rewriteDepReq_eq_lock (ign : String → Bool) (s t : Repo) (d : Dependency) :
    rewriteDepReq ign s t d = rewriteDepLock ign s t d := rfl

lemma rewriteDepLock_def (ign : String → Bool) (s t : Repo) (d : Dependency) :
    rewriteDepLock ign s t d =
      if (d.repository == s.url || !ign d.repository) = true then
        { d with repository := getDependencyRepoURL t }
      else d := rfl

lemma rewriteDepLock_name (ign : String → Bool) (s t : Repo) (d : Dependency) :
    (rewriteDepLock ign s t d).name = d.name := by
  rw [rewriteDepLock_def]
  split <;> rfl

lemma rewriteDepLock_version (ign : String → Bool) (s t : Repo) (d : Dependency) :
    (rewriteDepLock ign s t d).version = d.version := by
  rw [rewriteDepLock_def]
  split <;> rfl

lemma rewriteDepLock_idem (ign : String → Bool) (s t : Repo) (d : Dependency) :
    rewriteDepLock ign s t (rewriteDepLock ign s t d) = rewriteDepLock ign s t d := by
  by_cases hc : (d.repository == s.url || !ign d.repository) = true
  · rw [rewriteDepLock_def ign s t d, if_pos hc]
    by_cases hc2 : ((getDependencyRepoURL t : String) == s.url ||
        !ign (getDependencyRepoURL t)) = true
    · rw [rewriteDepLock_def]
      simp [hc2]
    · rw [rewriteDepLock_def]
      simp [hc2]
  · rw [rewriteDepLock_def ign s t d, if_neg hc, rewriteDepLock_def, if_neg hc]

lemma rewriteDepLock_source (ign : String → Bool) (s t : Repo) (d : Dependency)
    (h : d.repository = s.url) :
    (rewriteDepLock ign s t d).repository = getDependencyRepoURL t := by
  rw [rewriteDepLock_def]
  simp [h]

lemma rewriteDepLock_repo_congr (ign : String → Bool) (s t : Repo) (d l : Dependency)
    (h : d.repository = l.repository) :
    (rewriteDepLock ign s t d).repository = (rewriteDepLock ign s t l).repository := by
  rw [rewriteDepLock_def, rewriteDepLock_def, h]
  by_cases hc : (l.repository == s.url || !ign l.repository) = true
  · simp [hc]
  · simp [hc]
    exact h

lemma map_nv_rewriteDepLock (ign : String → Bool) (s t : Repo) (ds : List Dependency) :
    (ds.map (rewriteDepLock ign s t)).map nv = ds.map nv := by
  induction ds with
  | nil => rfl
  | cons d tl ih =>
    simp [nv, ih, rewriteDepLock_name, rewriteDepLock_version]
lemma splitSchemeL_append (r : List Char) :
    ∀ p : List Char, hasSchemeSep p = false →
      splitSchemeL (p ++ ':' :: '/' :: '/' :: r) = some (p, r)
  | [], _ => by simp [splitSchemeL]
  | [c], hp => by
    have h1 : splitSchemeL ([] ++ ':' :: '/' :: '/' :: r) = some ([], r) :=
      splitSchemeL_append r [] rfl
    simp only [List.nil_append] at h1
    simp only [List.cons_append, List.nil_append, splitSchemeL, h1]
    simp

  | c :: c2 :: cs, hp => by
    have hp2 : hasSchemeSep (c2 :: cs) = false := by
      unfold hasSchemeSep at hp
      split at hp
      · exact absurd hp (by simp)
      · exact hp
    have hcond : ¬(c = ':' ∧ (c2 :: cs).take 2 = ['/', '/']) := by
      unfold hasSchemeSep at hp
      split at hp
      · exact absurd hp (by simp)
      · rename_i hn
        exact hn
    have h1 := splitSchemeL_append r (c2 :: cs) hp2
    simp only [List.cons_append] at h1 ⊢
    unfold splitSchemeL
    rw [h1]
    split
    · rename_i hcc
      exfalso
      apply hcond
      rcases hcc with ⟨hc1, hc2⟩
      refine ⟨hc1, ?_⟩
      rcases cs with _ | ⟨c3, cs⟩
      · simp at hc2
      · simpa using hc2
    · rfl
lemma rewriteDepMeta_fun_eq : @rewriteDepMeta = @rewriteDepLock := rfl

lemma rewriteDepReq_fun_eq : @rewriteDepReq = @rewriteDepLock := rfl

/-- C3: a dependency whose declared repository URL equals the source
repository URL is rewritten, in the declaration entry (metadata or
requirements form) and in the corresponding lock entry alike, to the target's
canonical dependency URL. -/
theorem C3_source_deps_rewritten (ign : String → Bool) (s t : Repo)
    (dep ldep : Dependency)
    (hd : dep.repository = s.url) (hl : ldep.repository = dep.repository) :
    (rewriteDepMeta ign s t dep).repository = getDependencyRepoURL t ∧
    (rewriteDepReq ign s t dep).repository = getDependencyRepoURL t ∧
    (rewriteDepLock ign s t ldep).repository = getDependencyRepoURL t := by
  refine ⟨?_, ?_, ?_⟩
  · rw [rewriteDepMeta_eq_lock]
    exact rewriteDepLock_source ign s t dep hd
  · rw [rewriteDepReq_eq_lock]
    exact rewriteDepLock_source ign s t dep hd
  · exact rewriteDepLock_source ign s t ldep (hl.trans hd)

/-- Witness for C3 at a concrete dependency from the source repository, under
a classifier that marks every repository as ignored (so only the
source-equality disjunct forces the rewrite). -/
theorem C3_source_deps_rewritten_witness :
    (rewriteDepMeta (fun _ => true) srcA tgtA depA).repository =
      getDependencyRepoURL tgtA ∧
    (rewriteDepReq (fun _ => true) srcA tgtA depA).repository =
      getDependencyRepoURL tgtA ∧
    (rewriteDepLock (fun _ => true) srcA tgtA depA).repository =
      getDependencyRepoURL tgtA :=
  C3_source_deps_rewritten (fun _ => true) srcA tgtA depA depA rfl rfl

/-- C4: when the target repository kind is OCI, getDependencyRepoURL is the
configured target URL with its scheme replaced by exactly oci, host and path
kept; for every non-OCI kind it is the configured URL unchanged. -/
theorem C4_oci_canonical_url (targetRepo : Repo) (p r : List Char)
    (hk : targetRepo.kind = Kind.OCI)
    (hu : targetRepo.url = String.mk (p ++ ':' :: '/' :: '/' :: r))
    (hp : hasSchemeSep p = false) :
    getDependencyRepoURL targetRepo = "oci://" ++ String.mk r ∧
    ∀ t2 : Repo, t2.kind ≠ Kind.OCI → getDependencyRepoURL t2 = t2.url := by
  constructor
  · unfold getDependencyRepoURL
    rw [if_pos hk]
    unfold setOciScheme
    rw [hu]
    have hdata : (String.mk (p ++ ':' :: '/' :: '/' :: r)).data =
        p ++ ':' :: '/' :: '/' :: r := rfl
    rw [hdata, splitSchemeL_append r p hp]
  · intro t2 h2
    unfold getDependencyRepoURL
    rw [if_neg h2]

/-- Witness for C4 at the concrete OCI target with an https URL, and at the
concrete HELM target. -/
theorem C4_oci_canonical_url_witness :
    getDependencyRepoURL tgtOci = "oci://example.com/charts" ∧
    getDependencyRepoURL tgtA = tgtA.url := by
  have h := C4_oci_canonical_url tgtOci ['h', 't', 't', 'p', 's']
      (['e','x','a','m','p','l','e','.','c','o','m','/','c','h','a','r','t','s'])
      rfl (by decide) (by decide)
  refine ⟨?_, h.2 tgtA (by decide)⟩
  rw [h.1]
  decide

/-- C5: the per-dependency rewrite is idempotent, per entry and over whole
declaration and lock lists: applying it twice yields what applying it once
yields, for every classifier, source repository and target repository. -/
theorem C5_rewrite_idempotent (ign : String → Bool) (s t : Repo) :
    (∀ d, rewriteDepMeta ign s t (rewriteDepMeta ign s t d) =
      rewriteDepMeta ign s t d) ∧
    (∀ d, rewriteDepReq ign s t (rewriteDepReq ign s t d) =
      rewriteDepReq ign s t d) ∧
    (∀ d, rewriteDepLock ign s t (rewriteDepLock ign s t d) =
      rewriteDepLock ign s t d) ∧
    (∀ ds : List Dependency,
      (ds.map (rewriteDepMeta ign s t)).map (rewriteDepMeta ign s t) =
        ds.map (rewriteDepMeta ign s t)) ∧
    (∀ ds : List Dependency,
      (ds.map (rewriteDepLock ign s t)).map (rewriteDepLock ign s t) =
        ds.map (rewriteDepLock ign s t)) := by
  have hidem := rewriteDepLock_idem ign s t
  have hmap : ∀ ds : List Dependency,
      (ds.map (rewriteDepLock ign s t)).map (rewriteDepLock ign s t) =
        ds.map (rewriteDepLock ign s t) := by
    intro ds
    induction ds with
    | nil => rfl
    | cons d tl ih => simp [ih, hidem d]
  refine ⟨?_, ?_, hidem, ?_, hmap⟩
  · intro d
    rw [rewriteDepMeta_fun_eq]
    exact hidem d
  · intro d
    rw [rewriteDepReq_fun_eq]
    exact hidem d
  · intro ds
    rw [rewriteDepMeta_fun_eq]
    exact hmap ds

/-- C7: schema generation detection is by filename presence, the legacy
requirements.lock taking precedence over Chart.lock, with the empty marker and
no error when neither lock filename exists. -/
theorem C7_lock_detection (hr hc : Bool) (env : Env) :
    (hr = true → GetLockAPIVersion hr hc = APIV1) ∧
    (hr = false → hc = true → GetLockAPIVersion hr hc = APIV2) ∧
    (hr = false → hc = false → GetLockAPIVersion hr hc = "") ∧
    (env.hasRequirementsLock = false → env.hasChartLock = false →
      GetChartLock env = Except.ok none) := by
  refine ⟨?_, ?_, ?_, ?_⟩
  · intro h1
    subst h1
    simp [GetLockAPIVersion]
  · intro h1 h2
    subst h1
    subst h2
    simp [GetLockAPIVersion, APIV2]
  · intro h1 h2
    subst h1
    subst h2
    simp [GetLockAPIVersion]
  · intro h1 h2
    unfold GetChartLock
    rw [h1, h2]
    simp [GetLockAPIVersion]

/-- Witness for C7: both lock filenames present yields the legacy generation,
only Chart.lock yields the modern one, neither yields the empty marker and a
lock-free successful GetChartLock. -/
theorem C7_lock_detection_witness :
    GetLockAPIVersion true true = APIV1 ∧
    GetLockAPIVersion false true = APIV2 ∧
    GetLockAPIVersion false false = "" ∧
    GetChartLock envNoLock = Except.ok none :=
  ⟨(C7_lock_detection true true envNoLock).1 rfl,
   (C7_lock_detection false true envNoLock).2.1 rfl rfl,
   (C7_lock_detection false false envNoLock).2.2.1 rfl rfl,
   (C7_lock_detection false false envNoLock).2.2.2 rfl rfl⟩

/-- C9: the metadata declaration rewrite and the lock entry rewrite are the
same per-dependency decision; both preserve name and version, so equal
name-version projections stay equal across the two lists, and entries with
the same repository URL receive the same rewritten URL. -/
theorem C9_declarations_lock_agree (ign : String → Bool) (s t : Repo) :
    (∀ d, rewriteDepMeta ign s t d = rewriteDepLock ign s t d) ∧
    (∀ d, (rewriteDepMeta ign s t d).name = d.name ∧
      (rewriteDepMeta ign s t d).version = d.version) ∧
    (∀ d, (rewriteDepLock ign s t d).name = d.name ∧
      (rewriteDepLock ign s t d).version = d.version) ∧
    (∀ decls locks : List Dependency, decls.map nv = locks.map nv →
      (decls.map (rewriteDepMeta ign s t)).map nv =
        (locks.map (rewriteDepLock ign s t)).map nv) ∧
    (∀ d l : Dependency, d.repository = l.repository →
      (rewriteDepMeta ign s t d).repository =
        (rewriteDepLock ign s t l).repository) := by
  refine ⟨fun d => rewriteDepMeta_eq_lock ign s t d, ?_, ?_, ?_, ?_⟩
  · intro d
    rw [rewriteDepMeta_fun_eq]
    exact ⟨rewriteDepLock_name ign s t d, rewriteDepLock_version ign s t d⟩
  · intro d
    exact ⟨rewriteDepLock_name ign s t d, rewriteDepLock_version ign s t d⟩
  · intro decls locks hnv
    rw [rewriteDepMeta_fun_eq, map_nv_rewriteDepLock, map_nv_rewriteDepLock]
    exact hnv
  · intro d l hdl
    rw [rewriteDepMeta_fun_eq]
    exact rewriteDepLock_repo_congr ign s t d l hdl

/-- Witness for C9 at a concrete classifier, repositories and one-entry
lists. -/
theorem C9_declarations_lock_agree_witness :
    rewriteDepMeta (fun _ => false) srcA tgtA depA =
      rewriteDepLock (fun _ => false) srcA tgtA depA ∧
    ([depA].map (rewriteDepMeta (fun _ => false) srcA tgtA)).map nv =
      ([depA].map (rewriteDepLock (fun _ => false) srcA tgtA)).map nv ∧
    (rewriteDepMeta (fun _ => false) srcA tgtA depA).repository =
      (rewriteDepLock (fun _ => false) srcA tgtA depA).repository :=
  ⟨(C9_declarations_lock_agree (fun _ => false) srcA tgtA).1 depA,
   (C9_declarations_lock_agree (fun _ => false) srcA tgtA).2.2.2.1 [depA] [depA] rfl,
   (C9_declarations_lock_agree (fun _ => false) srcA tgtA).2.2.2.2 depA depA rfl⟩
lemma escChar_form (c : Char) :
    (c = '"' ∧ escChar c = ['\\', '"']) ∨
    (c = '\\' ∧ escChar c = ['\\', '\\']) ∨
    (c ≠ '"' ∧ c ≠ '\\' ∧ escChar c = [c]) := by
  by_cases h1 : c = '"'
  · exact Or.inl ⟨h1, by simp [escChar, h1]⟩
  · by_cases h2 : c = '\\'
    · exact Or.inr (Or.inl ⟨h2, by simp [escChar, h1, h2]⟩)
    · exact Or.inr (Or.inr ⟨h1, h2, by simp [escChar, h1, h2]⟩)

lemma escChar_cancel (c1 c2 : Char) (A B : List Char)
    (h : escChar c1 ++ A = escChar c2 ++ B) : c1 = c2 ∧ A = B := by
  rcases escChar_form c1 with ⟨hc1, hf1⟩ | ⟨hc1, hf1⟩ | ⟨hc1a, hc1b, hf1⟩ <;>
    rcases escChar_form c2 with ⟨hc2, hf2⟩ | ⟨hc2, hf2⟩ | ⟨hc2a, hc2b, hf2⟩ <;>
    rw [hf1, hf2] at h <;>
    simp only [List.cons_append, List.nil_append, List.cons.injEq, true_and] at h <;>
    first
      | exact absurd h.1.symm hc2b
      | simp_all

lemma escChar_head_ne_quote (c : Char) :
    ∃ x xs, escChar c = x :: xs ∧ x ≠ '"' := by
  rcases escChar_form c with ⟨hc, hf⟩ | ⟨hc, hf⟩ | ⟨hca, hcb, hf⟩
  · exact ⟨'\\', _, hf, by simp⟩
  · exact ⟨'\\', _, hf, by simp⟩
  · exact ⟨c, [], hf, hca⟩

theorem escape_cancel : ∀ (s1 s2 r1 r2 : List Char),
    escape s1 ++ '"' :: r1 = escape s2 ++ '"' :: r2 → s1 = s2 ∧ r1 = r2
  | [], [], r1, r2, h => by
    simp only [escape, List.nil_append, List.cons.injEq, true_and] at h
    exact ⟨rfl, h⟩
  | [], c :: cs, r1, r2, h => by
    exfalso
    obtain ⟨x, xs, he, hx⟩ := escChar_head_ne_quote c
    simp only [escape, List.nil_append, he, List.cons_append, List.append_assoc,
      List.cons.injEq] at h
    exact hx h.1.symm
  | c :: cs, [], r1, r2, h => by
    exfalso
    obtain ⟨x, xs, he, hx⟩ := escChar_head_ne_quote c
    simp only [escape, List.nil_append, he, List.cons_append, List.append_assoc,
      List.cons.injEq] at h
    exact hx h.1
  | c1 :: cs1, c2 :: cs2, r1, r2, h => by
    simp only [escape, List.append_assoc] at h
    obtain ⟨hc, hrest⟩ := escChar_cancel c1 c2 _ _ h
    obtain ⟨hs, hr⟩ := escape_cancel cs1 cs2 r1 r2 hrest
    exact ⟨by rw [hc, hs], hr⟩

lemma encStr_cancel (a b : String) (r1 r2 : List Char)
    (h : encStr a ++ r1 = encStr b ++ r2) : a = b ∧ r1 = r2 := by
  simp only [encStr, List.cons_append, List.append_assoc, List.singleton_append,
    List.cons.injEq, true_and] at h
  obtain ⟨hd, hr⟩ := escape_cancel a.data b.data r1 r2 h
  refine ⟨?_, hr⟩
  cases a
  cases b
  simp_all

lemma encDep_cancel (d1 d2 : Dependency) (r1 r2 : List Char)
    (h : encDep d1 ++ r1 = encDep d2 ++ r2) : d1 = d2 ∧ r1 = r2 := by
  simp only [encDep, keyName, keyVersion, keyRepository, List.cons_append,
    List.nil_append, List.append_assoc, List.singleton_append, List.cons.injEq,
    true_and] at h
  obtain ⟨hn, h⟩ := encStr_cancel d1.name d2.name _ _ h
  simp only [List.cons.injEq, true_and] at h
  obtain ⟨hv, h⟩ := encStr_cancel d1.version d2.version _ _ h
  simp only [List.cons.injEq, true_and] at h
  obtain ⟨hrep, h⟩ := encStr_cancel d1.repository d2.repository _ _ h
  simp only [List.cons.injEq, true_and] at h
  refine ⟨?_, h⟩
  cases d1
  cases d2
  simp_all

lemma encDep_head (d : Dependency) : ∃ xs, encDep d = '\x7b' :: xs :=
  ⟨_, rfl⟩

theorem encItems_cancel : ∀ (l1 l2 : List Dependency) (r1 r2 : List Char),
    encItems l1 ++ ']' :: r1 = encItems l2 ++ ']' :: r2 → l1 = l2 ∧ r1 = r2
  | [], [], r1, r2, h => by
    simp only [encItems, List.nil_append, List.cons.injEq, true_and] at h
    exact ⟨rfl, h⟩
  | [], d :: ds, r1, r2, h => by
    exfalso
    obtain ⟨xs, he⟩ := encDep_head d
    rcases ds with _ | ⟨d2, ds⟩ <;>
      simp only [encItems, List.nil_append, he, List.cons_append,
        List.append_assoc, List.cons.injEq] at h <;>
      simp_all
  | d :: ds, [], r1, r2, h => by
    exfalso
    obtain ⟨xs, he⟩ := encDep_head d
    rcases ds with _ | ⟨d2, ds⟩ <;>
      simp only [encItems, List.nil_append, he, List.cons_append,
        List.append_assoc, List.cons.injEq] at h <;>
      simp_all
  | [d1], [d2], r1, r2, h => by
    simp only [encItems] at h
    obtain ⟨hd, h⟩ := encDep_cancel d1 d2 _ _ h
    simp only [List.cons.injEq, true_and] at h
    exact ⟨by rw [hd], h⟩
  | [d1], d2 :: d2b :: ds2, r1, r2, h => by
    exfalso
    simp only [encItems, List.append_assoc, List.cons_append] at h
    obtain ⟨hd, h⟩ := encDep_cancel d1 d2 _ _ h
    simp at h
  | d1 :: d1b :: ds1, [d2], r1, r2, h => by
    exfalso
    simp only [encItems, List.append_assoc, List.cons_append] at h
    obtain ⟨hd, h⟩ := encDep_cancel d1 d2 _ _ h
    simp at h
  | d1 :: d1b :: ds1, d2 :: d2b :: ds2, r1, r2, h => by
    simp only [encItems, List.append_assoc, List.cons_append] at h
    obtain ⟨hd, h⟩ := encDep_cancel d1 d2 _ _ h
    simp only [List.cons.injEq, true_and] at h
    obtain ⟨ht, hr⟩ := encItems_cancel (d1b :: ds1) (d2b :: ds2) r1 r2 h
    exact ⟨by rw [hd, ht], hr⟩

lemma encPair_inj (a1 b1 a2 b2 : List Dependency)
    (h : encPair a1 b1 = encPair a2 b2) : a1 = a2 ∧ b1 = b2 := by
  simp only [encPair, encList, List.cons_append, List.nil_append,
    List.append_assoc, List.singleton_append, List.cons.injEq, true_and] at h
  obtain ⟨ha, h⟩ := encItems_cancel a1 a2 _ _ h
  simp only [List.nil_append, List.cons.injEq, true_and] at h
  obtain ⟨hb, h⟩ := encItems_cancel b1 b2 _ _ h
  exact ⟨ha, hb⟩

lemma hashDeps_inj (r1 l1 r2 l2 : List Dependency)
    (h : hashDeps r1 l1 = hashDeps r2 l2) : r1 = r2 ∧ l1 = l2 := by
  unfold hashDeps provenanceDigest at h
  have hd := congrArg String.data h
  rw [String.data_append, String.data_append] at hd
  have hmk : (String.mk (encPair r1 l1)).data = (String.mk (encPair r2 l2)).data :=
    List.append_cancel_left hd
  exact encPair_inj r1 l1 r2 l2 hmk

/-- C6: hashDeps is a pure function of the ordered pair of the declaration
list and the lock-entry list, equal pairs giving the identical digest string
and any change to either list changing the digest string (the external
sha-256 digest being modelled as collision-free). -/
theorem C6_digest_pure_injective (r1 l1 r2 l2 : List Dependency) :
    hashDeps r1 l1 = hashDeps r2 l2 ↔ r1 = r2 ∧ l1 = l2 := by
  constructor
  · exact hashDeps_inj r1 l1 r2 l2
  · rintro ⟨rfl, rfl⟩
    rfl
lemma buildDependencies_fatal {env : Env} {p : String} {s t : Repo} {st : FSState}
    {e : String}
    (h : BuildDependencies env p s t = (st, BuildResult.fatal e)) :
    st = initialState := by
  obtain ⟨hrl, hcl, lf, cm, ry, ig, lo, fe, co⟩ := env
  rcases cm with ce | ⟨av, mdeps⟩ <;>
    (try by_cases hav : av = "v2") <;>
    (try rcases mdeps with _ | mdl) <;>
    cases hrl <;> cases hcl <;> cases lf <;> cases ry <;>
    (try simp_all [BuildDependencies, GetChartLock, GetLockAPIVersion, resolveGeneration,
      updateFiles, updateRequirementsFile, updateChartMetadataFile, updateLockFile,
      authoritativeDepsAtFetch, APIV1, APIV2, APIVersionV2, initialState, materializeDeps])

lemma buildDependencies_done {env : Env} {p : String} {s t : Repo} {st : FSState}
    {errs : List String}
    (h : BuildDependencies env p s t = (st, BuildResult.done errs)) :
    st.artifacts = (materializeDeps env p (authoritativeDepsAtFetch env s t)).1 ∧
    errs = (materializeDeps env p (authoritativeDepsAtFetch env s t)).2.1 ∧
    st.fetchCalls = (materializeDeps env p (authoritativeDepsAtFetch env s t)).2.2 := by
  obtain ⟨hrl, hcl, lf, cm, ry, ig, lo, fe, co⟩ := env
  rcases cm with ce | ⟨av, mdeps⟩ <;>
    (try by_cases hav : av = "v2") <;>
    (try rcases mdeps with _ | mdl) <;>
    cases hrl <;> cases hcl <;> cases lf <;> cases ry <;>
    (try simp_all [BuildDependencies, GetChartLock, GetLockAPIVersion, resolveGeneration,
      updateFiles, updateRequirementsFile, updateChartMetadataFile, updateLockFile,
      authoritativeDepsAtFetch, APIV1, APIV2, APIVersionV2, initialState, materializeDeps]) <;>
    (try (obtain ⟨rfl, rfl⟩ := h)) <;>
    (try simp_all [materializeDeps])

lemma materializeDeps_arts (env : Env) (p : String) : ∀ deps : List Dependency,
    (materializeDeps env p deps).1 = deps.filterMap (materializeArtifact env p)
  | [] => rfl
  | d :: ds => by
    cases hm : materializeDep env p d <;>
      simp [materializeDeps, materializeArtifact, hm, materializeDeps_arts env p ds]

lemma materializeDeps_errs (env : Env) (p : String) : ∀ deps : List Dependency,
    (materializeDeps env p deps).2.1 = deps.filterMap (materializeError env p)
  | [] => rfl
  | d :: ds => by
    cases hm : materializeDep env p d <;>
      simp [materializeDeps, materializeError, hm, materializeDeps_errs env p ds]

lemma materializeDeps_trace (env : Env) (p : String) : ∀ deps : List Dependency,
    (materializeDeps env p deps).2.2 =
      deps.map (fun d => (depId d, selectClient env d.repository))
  | [] => rfl
  | d :: ds => by
    cases hm : materializeDep env p d <;>
      simp [materializeDeps, hm, materializeDeps_trace env p ds]

lemma materializeError_none_iff (env : Env) (p : String) (d : Dependency) :
    materializeError env p d = none ↔ ∃ f, materializeDep env p d = Except.ok f := by
  unfold materializeError
  cases hm : materializeDep env p d <;> simp

/-- C1 (amended): the fetch origin of every materialized dependency is
selected from the dependency's repository URL as it stands at fetch time, the
in-place rewritten lock entry URL when a lock exists and the pre-rewrite
inline metadata URL otherwise: the recorded client trace is exactly the
per-dependency selection over that list. -/
theorem C1_fetch_origin_amended (env : Env) (p : String) (s t : Repo)
    (st : FSState) (errs : List String)
    (h : BuildDependencies env p s t = (st, BuildResult.done errs)) :
    st.fetchCalls = (authoritativeDepsAtFetch env s t).map
      (fun d => (depId d, selectClient env d.repository)) := by
  have hd := buildDependencies_done h
  rw [hd.2.2, materializeDeps_trace]

/-- Witness for the amended C1 at the concrete lock-bearing chart. -/
theorem C1_fetch_origin_amended_witness :
    (BuildDependencies envA "/c" srcA tgtA).1.fetchCalls =
      (authoritativeDepsAtFetch envA srcA tgtA).map
        (fun d => (depId d, selectClient envA d.repository)) :=
  C1_fetch_origin_amended envA "/c" srcA tgtA
    (BuildDependencies envA "/c" srcA tgtA).1
    (materializeDeps envA "/c" (authoritativeDepsAtFetch envA srcA tgtA)).2.1
    (by decide)

/-- Counterexample to C1 as stated: in envA the single lock entry's original
repository is classified as ignored by the trust classifier, yet the archive
is fetched from the target-side client, because the lock entries were
rewritten in place to the target URL before materialization. -/
theorem C1_fetch_origin_counterexample :
    ¬ FetchFromOriginalRepo envA "/c" srcA tgtA := by
  unfold FetchFromOriginalRepo
  decide

/-- C2: one failed dependency does not stop materialization: the aggregated
error list collects exactly the per-dependency failures, each named by its
name-version identity key with its cause, artifacts of successful
dependencies stay in the charts folder, and the call returns the empty (nil)
error exactly when every dependency succeeded. -/
theorem C2_partial_failure_aggregation (env : Env) (p : String) (s t : Repo)
    (st : FSState) (errs : List String)
    (h : BuildDependencies env p s t = (st, BuildResult.done errs)) :
    errs = (authoritativeDepsAtFetch env s t).filterMap (materializeError env p) ∧
    st.artifacts =
      (authoritativeDepsAtFetch env s t).filterMap (materializeArtifact env p) ∧
    (∀ d ∈ authoritativeDepsAtFetch env s t, ∀ e,
      materializeDep env p d = Except.error e → e ∈ errs) ∧
    (∀ d ∈ authoritativeDepsAtFetch env s t, ∀ f,
      materializeDep env p d = Except.ok f → f ∈ st.artifacts) ∧
    (∀ d ∈ authoritativeDepsAtFetch env s t, ∀ e,
      env.fetch (selectClient env d.repository) d.name d.version =
          Except.error e →
        ("fetching \"" ++ depId d ++ "\" chart: " ++ e) ∈ errs) ∧
    (errs = [] ↔ ∀ d ∈ authoritativeDepsAtFetch env s t, ∃ f,
      materializeDep env p d = Except.ok f) := by
  have hd := buildDependencies_done h
  have he : errs = (authoritativeDepsAtFetch env s t).filterMap (materializeError env p) := by
    rw [hd.2.1, materializeDeps_errs]
  have ha : st.artifacts =
      (authoritativeDepsAtFetch env s t).filterMap (materializeArtifact env p) := by
    rw [hd.1, materializeDeps_arts]
  refine ⟨he, ha, ?_, ?_, ?_, ?_⟩
  · intro d hdm e hme
    rw [he]
    exact List.mem_filterMap.mpr ⟨d, hdm, by simp [materializeError, hme]⟩
  · intro d hdm f hmf
    rw [ha]
    exact List.mem_filterMap.mpr ⟨d, hdm, by simp [materializeArtifact, hmf]⟩
  · intro d hdm e hfe
    rw [he]
    refine List.mem_filterMap.mpr ⟨d, hdm, ?_⟩
    simp [materializeError, materializeDep, hfe]
  · rw [he, List.filterMap_eq_nil_iff]
    constructor
    · intro hall d hdm
      exact (materializeError_none_iff env p d).mp (hall d hdm)
    · intro hall d hdm
      exact (materializeError_none_iff env p d).mpr (hall d hdm)

set_option maxRecDepth 8192 in
/-- Witness for C2 at the three-dependency chart whose second fetch fails:
the aggregated error names exactly etcd-1.2.3 with its cause, and the first
and third artifacts are present. -/
theorem C2_partial_failure_aggregation_witness :
    ("fetching \"etcd-1.2.3\" chart: transport error") ∈
      ["fetching \"etcd-1.2.3\" chart: transport error"] ∧
    (BuildDependencies envEtcd "/c" srcA tgtA).1.artifacts =
      ["/c/charts/zookeeper-3.8.0.tgz", "/c/charts/redis-7.0.0.tgz"] := by
  have hc := C2_partial_failure_aggregation envEtcd "/c" srcA tgtA
      (BuildDependencies envEtcd "/c" srcA tgtA).1
      ["fetching \"etcd-1.2.3\" chart: transport error"] (by decide)
  refine ⟨?_, ?_⟩
  · exact hc.2.2.2.2.1
      { name := "etcd", version := "1.2.3", repository := "http://t.example" }
      (by decide) "transport error" rfl
  · rw [hc.2.1]
    decide

/-- C8: a modern chart declaring its dependencies inline with no lock file is
rewritten in the metadata only: no lock value is written (digest recomputation
skipped), the call returns the nil error when every fetch succeeds, and the
charts folder is rebuilt from the inline declarations. -/
theorem C8_modern_no_lock (env : Env) (p : String) (s t : Repo) (md : Metadata)
    (ds : List Dependency)
    (hrl : env.hasRequirementsLock = false) (hcl : env.hasChartLock = false)
    (hmd : env.chartMeta = Except.ok md)
    (hav : md.apiVersion = APIVersionV2)
    (hds : md.dependencies = some ds)
    (hok : ∀ d ∈ ds, ∃ f, materializeDep env p d = Except.ok f) :
    BuildDependencies env p s t =
      ({ chartsDirCleared := true
         artifacts := ds.filterMap (materializeArtifact env p)
         chartYamlOut := some { md with
           dependencies := some (ds.map (rewriteDepMeta env.ign s t)) }
         requirementsOut := none
         lockOut := none
         fetchCalls := ds.map (fun d => (depId d, selectClient env d.repository)) },
       BuildResult.done []) := by
  have hGL : GetChartLock env = Except.ok none := by
    simp [GetChartLock, GetLockAPIVersion, hrl, hcl]
  have hRG : resolveGeneration env = Except.ok (some (APIV2, some ds)) := by
    simp [resolveGeneration, GetLockAPIVersion, hrl, hcl, hmd, hav, hds, APIVersionV2]
  have hUF : updateFiles env s t none APIV2 =
      Except.ok
        ({ initialState with
            chartYamlOut := some { md with
              dependencies := some (ds.map (rewriteDepMeta env.ign s t)) }
            lockOut := none }, none) := by
    simp [updateFiles, updateChartMetadataFile, hmd, hds, APIV1, APIV2]
  have hErr : (materializeDeps env p ds).2.1 = [] := by
    rw [materializeDeps_errs, List.filterMap_eq_nil_iff]
    intro d hdm
    exact (materializeError_none_iff env p d).mpr (hok d hdm)
  simp only [BuildDependencies, hGL, hRG, hUF, Option.getD_some]
  rw [materializeDeps_arts env p ds, materializeDeps_trace env p ds, hErr]
  simp [initialState]
set_option maxRecDepth 8192 in
/-- Witness for C8 at the concrete modern no-lock chart: metadata rewritten,
no lock written, nil error, artifact rebuilt from the inline declaration. -/
theorem C8_modern_no_lock_witness :
    BuildDependencies envMeta "/c" srcA tgtA =
      ({ chartsDirCleared := true
         artifacts := ["/c/charts/dep-1.0.0.tgz"]
         chartYamlOut := some
           { apiVersion := "v2"
             dependencies :=
               some [{ name := "dep", version := "1.0.0", repository := "http://t.example" }] }
         requirementsOut := none
         lockOut := none
         fetchCalls := [("dep-1.0.0", ClientId.target)] },
       BuildResult.done []) := by
  have hc := C8_modern_no_lock envMeta "/c" srcA tgtA
      { apiVersion := "v2", dependencies := some [depA] } [depA]
      rfl rfl rfl rfl rfl
      (by
        intro d hd
        simp only [List.mem_singleton] at hd
        subst hd
        exact ⟨"/c/charts/dep-1.0.0.tgz", rfl⟩)
  rw [hc]
  decide

/-- C10: whenever BuildDependencies returns a fatal error (in particular a
malformed lock or metadata parse), the charts folder has already been removed
and recreated empty, and no declaration or lock file has been written: the
invocation is not atomic with respect to fatal errors. -/
theorem C10_charts_folder_cleared (env : Env) (p : String) (s t : Repo)
    (st : FSState) (e : String)
    (h : BuildDependencies env p s t = (st, BuildResult.fatal e)) :
    st.chartsDirCleared = true ∧ st.artifacts = [] ∧ st.chartYamlOut = none ∧
    st.requirementsOut = none ∧ st.lockOut = none := by
  have hst := buildDependencies_fatal h
  subst hst
  exact ⟨rfl, rfl, rfl, rfl, rfl⟩

/-- Witness for C10 at the concrete chart with a malformed Chart.lock. -/
theorem C10_charts_folder_cleared_witness :
    initialState.chartsDirCleared = true ∧ initialState.artifacts = [] ∧
    initialState.chartYamlOut = none ∧ initialState.requirementsOut = none ∧
    initialState.lockOut = none :=
  C10_charts_folder_cleared envBadLock "/c" srcA tgtA initialState
    "error converting YAML to JSON" (by decide)

/-- Witness for C6 at concrete one-entry lists: equal pairs give the equal
digest and a changed declaration list changes the digest. -/
theorem C6_digest_pure_injective_witness :
    hashDeps [depA] [depA] = hashDeps [depA] [depA] ∧
    hashDeps [depZk] [depA] ≠ hashDeps [depA] [depA] := by
  constructor
  · exact (C6_digest_pure_injective [depA] [depA] [depA] [depA]).mpr ⟨rfl, rfl⟩
  · intro hEq
    have hz := (C6_digest_pure_injective [depZk] [depA] [depA] [depA]).mp hEq
    exact absurd hz.1 (by decide)

end ChartsSyncer
